import Mathlib

/-!
Shallow embedding of the dino-nest-server Go API server: the in-memory
user/goal store (internal/database/memory.go), the JWT token service
(internal/utils/jwt.go), the auth flow handlers (internal/handler auth.go)
and the goal flow handlers (internal/handler goals.go), together with
theorems checking the specification claims against it.

Conventions of the embedding:
* `Rat` models Go float64 amounts exactly (the code paths verified here only
  add and compare amounts, so no rounding behaviour is exercised).
* Go maps are modelled as association lists; the store operations preserve
  key uniqueness exactly as the Go map does.
* `Instant` models a Go time.Time value, observed both as absolute seconds
  and as its civil-date view.
* Handlers are modelled from the point after JSON binding and the auth
  middleware have run (both live at the HTTP boundary, outside the flows);
  each handler takes the values the framework injects (user ID, parsed
  request, generated UUID, current time) as explicit parameters.
-/

namespace DinoNest

/-- Civil calendar date: the date view of a Go time.Time. -/
structure Date where
  year : Int
  month : Nat
  day : Nat
deriving DecidableEq

/-- Leap-year rule, as in Go time.isLeap. -/
def isLeap (year : Int) : Bool :=
  year % 4 == 0 && (year % 100 != 0 || year % 400 == 0)

/-- Days in a month, as in Go time.daysIn. -/
def daysInMonth (year : Int) (month : Nat) : Nat :=
  if month = 2 then (if isLeap year then 29 else 28)
  else if month = 4 ∨ month = 6 ∨ month = 9 ∨ month = 11 then 30
  else 31

/-- Day-of-month normalization: days past the end of the month roll into the
following months. Go time.Date performs this normalization by sending the
possibly out-of-range civil triple through an absolute day count and back;
rolling one month at a time computes the same date. Callers pass 1 ≤ day. -/
def normDays (year : Int) (month : Nat) (day : Nat) : Date :=
  if day ≤ daysInMonth year month then ⟨year, month, day⟩
  else if month = 12 then normDays (year + 1) 1 (day - daysInMonth year month)
  else normDays year (month + 1) (day - daysInMonth year month)
termination_by day
decreasing_by
  all_goals
    have h1 : 1 ≤ daysInMonth year month := by
      unfold daysInMonth
      split <;> split <;> omega
    omega

/-- The calendar successor of a date: the specification reading of adding one
day to a date. -/
def nextDay (t : Date) : Date :=
  if t.day < daysInMonth t.year t.month then ⟨t.year, t.month, t.day + 1⟩
  else if t.month = 12 then ⟨t.year + 1, 1, 1⟩
  else ⟨t.year, t.month + 1, 1⟩

/-- Go time.Time.AddDate, restricted to the nonnegative offsets the handlers
use: normalize the month (carrying whole years), then normalize the day. -/
def addDate (t : Date) (years months days : Nat) : Date :=
  let m0 := t.month + months - 1
  normDays (t.year + (years : Int) + ((m0 / 12 : Nat) : Int)) (m0 % 12 + 1) (t.day + days)

/-- Specification reading of start plus n days: the n-fold calendar successor. -/
def plusDays (t : Date) (n : Nat) : Date := nextDay^[n] t

/-- Specification reading of start plus one calendar month: month index plus
one with year carry, same day of month, with days beyond the new month length
rolling onward. -/
def plusOneMonth (t : Date) : Date :=
  if t.month = 12 then normDays (t.year + 1) 1 t.day
  else normDays t.year (t.month + 1) t.day

/-- Specification reading of start plus one calendar year. -/
def plusOneYear (t : Date) : Date := normDays (t.year + 1) t.month t.day

/-- A well-formed civil date. -/
def Date.Valid (t : Date) : Prop :=
  1 ≤ t.month ∧ t.month ≤ 12 ∧ 1 ≤ t.day ∧ t.day ≤ daysInMonth t.year t.month

instance (t : Date) : Decidable t.Valid := by
  unfold Date.Valid
  exact inferInstance

/-- A Go time.Time value: absolute seconds together with its civil-date view. -/
structure Instant where
  secs : Nat
  date : Date
deriving DecidableEq

/-- internal/models user.go User; the password field stores the bcrypt hash. -/
structure User where
  id : String
  email : String
  password : String
  createdAt : Instant
  updatedAt : Instant
deriving DecidableEq

/-- internal/models goal.go GoalDuration (oneof weekly monthly yearly). -/
inductive GoalDuration where
  | weekly
  | monthly
  | yearly
deriving DecidableEq

/-- internal/models goal.go Goal. -/
structure Goal where
  id : String
  userID : String
  title : String
  targetAmount : Rat
  currentAmount : Rat
  duration : GoalDuration
  startDate : Date
  endDate : Date
  completed : Bool
  completedAt : Option Instant
  createdAt : Instant
deriving DecidableEq

/-- internal/models user.go SignupRequest (after binding validation). -/
structure SignupRequest where
  email : String
  password : String
deriving DecidableEq

/-- internal/models user.go LoginRequest (after binding validation). -/
structure LoginRequest where
  email : String
  password : String
deriving DecidableEq

/-- internal/models goal.go CreateGoalRequest (after binding validation). -/
structure CreateGoalRequest where
  title : String
  targetAmount : Rat
  duration : GoalDuration
deriving DecidableEq

/-- internal/models user.go UserResponse: the public user view. -/
structure UserResponse where
  id : String
  email : String
  createdAt : Instant
deriving DecidableEq

/-- internal/database/memory.go InMemoryDB: the two Go maps, modelled as
association lists (users keyed by email, goals keyed by goal ID). -/
structure InMemoryDB where
  users : List (String × User)
  goals : List (String × Goal)
deriving DecidableEq

namespace InMemoryDB

/-- internal/database/memory.go GetUserByEmail; the Go error case is `none`. -/
def GetUserByEmail (db : InMemoryDB) (email : String) : Option User :=
  (db.users.find? (fun kv => kv.1 == email)).map Prod.snd

/-- internal/database/memory.go CreateUser. -/
def CreateUser (db : InMemoryDB) (user : User) : InMemoryDB × Option String :=
  if (db.GetUserByEmail user.email).isSome then
    (db, some "user with this email already exists")
  else
    ({ db with users := db.users ++ [(user.email, user)] }, none)

/-- internal/database/memory.go GetUserByID: linear scan over all users. -/
def GetUserByID (db : InMemoryDB) (id : String) : Option User :=
  (db.users.map Prod.snd).find? (fun u => u.id == id)

/-- internal/database/memory.go DeleteUser. -/
def DeleteUser (db : InMemoryDB) (email : String) : InMemoryDB × Option String :=
  if (db.GetUserByEmail email).isNone then
    (db, some "user not found")
  else
    ({ db with users := db.users.filter (fun kv => kv.1 != email) }, none)

/-- internal/database/memory.go GetAllUsers. -/
def GetAllUsers (db : InMemoryDB) : List User :=
  db.users.map Prod.snd

/-- internal/database/memory.go GetGoalByID; the Go error case is `none`. -/
def GetGoalByID (db : InMemoryDB) (id : String) : Option Goal :=
  (db.goals.find? (fun kv => kv.1 == id)).map Prod.snd

/-- internal/database/memory.go CreateGoal. -/
def CreateGoal (db : InMemoryDB) (goal : Goal) : InMemoryDB × Option String :=
  if (db.GetGoalByID goal.id).isSome then
    (db, some "goal with this ID already exists")
  else
    ({ db with goals := db.goals ++ [(goal.id, goal)] }, none)

/-- internal/database/memory.go GetGoalsByUserID: the loop appending every
goal whose owner matches; the error component is always nil. -/
def GetGoalsByUserID (db : InMemoryDB) (userID : String) : List Goal × Option String :=
  (db.goals.foldl (fun acc kv => if kv.2.userID == userID then acc ++ [kv.2] else acc) [],
   none)

/-- internal/database/memory.go UpdateGoal: full-record replace keyed by the
goal ID. -/
def UpdateGoal (db : InMemoryDB) (goal : Goal) : InMemoryDB × Option String :=
  if (db.GetGoalByID goal.id).isNone then
    (db, some "goal not found")
  else
    ({ db with goals := db.goals.map (fun kv => if kv.1 == goal.id then (kv.1, goal) else kv) },
     none)

/-- internal/database/memory.go DeleteGoal. -/
def DeleteGoal (db : InMemoryDB) (id : String) : InMemoryDB × Option String :=
  if (db.GetGoalByID id).isNone then
    (db, some "goal not found")
  else
    ({ db with goals := db.goals.filter (fun kv => kv.1 != id) }, none)

end InMemoryDB

/-- internal/utils/jwt.go JWTClaims: the token payload (times in seconds). -/
structure JWTClaims where
  userID : String
  email : String
  expiresAt : Nat
  issuedAt : Nat
  notBefore : Nat
deriving DecidableEq

/-- A signed token value. The opaque JWT string is modelled by its decoded
claims together with whether its HMAC signature verifies under the server
secret; a string that fails to parse, was signed with another key, or was
signed with a non-HMAC algorithm is a token whose flag is false. -/
structure SignedToken where
  claims : JWTClaims
  hmacOk : Bool
deriving DecidableEq

/-- internal/utils/jwt.go GenerateJWT: claims with expires-at = now + 24h,
issued-at = now, not-before = now, HMAC-signed with the server secret. -/
def GenerateJWT (now : Nat) (userID email : String) : SignedToken :=
  { claims := { userID := userID, email := email,
                expiresAt := now + 24 * 60 * 60, issuedAt := now, notBefore := now },
    hmacOk := true }

/-- internal/utils/jwt.go ValidateJWT. Modelled from the spec: the parse,
signature and time checks run inside the external golang-jwt library, which
the spec describes as rejecting a bad or non-HMAC signature and any
validation time outside the validity window; a token is accepted exactly
when its signature verifies and not-before ≤ now < expires-at. -/
def ValidateJWT (now : Nat) (tok : SignedToken) : Option JWTClaims :=
  if tok.hmacOk ∧ tok.claims.notBefore ≤ now ∧ now < tok.claims.expiresAt then
    some tok.claims
  else
    none

/-- internal/utils/jwt.go ExtractUserIDFromToken. -/
def ExtractUserIDFromToken (now : Nat) (tok : SignedToken) : Option String :=
  (ValidateJWT now tok).map JWTClaims.userID

/-- Outcome of SignupHandler (after binding; the HTTP status is determined by
the constructor: created 201, conflict 409, internalError 500). -/
inductive SignupResult where
  | created (token : SignedToken) (user : UserResponse)
  | conflict (msg : String)
  | internalError (msg : String)
deriving DecidableEq

/-- Outcome of LoginHandler (success 200, unauthorized 401). The 500 branch
of the Go code is only reachable on a signing-backend failure, which the
token service model never produces. -/
inductive LoginResult where
  | success (token : SignedToken) (user : UserResponse)
  | unauthorized (msg : String)
deriving DecidableEq

/-- Outcome of LogoutHandler (ok 200 with the confirmed user ID, 401). -/
inductive LogoutResult where
  | ok (userID : String)
  | unauthorized (msg : String)
deriving DecidableEq

/-- Outcome of CreateGoalHandler (created 201, internalError 500). -/
inductive CreateGoalResult where
  | created (goal : Goal)
  | internalError (msg : String)
deriving DecidableEq

/-- Outcome of UpdateGoalProgressHandler (ok 200 with the updated goal,
notFound 404, forbidden 403, internalError 500). -/
inductive UpdateGoalResult where
  | ok (goal : Goal)
  | notFound (msg : String)
  | forbidden (msg : String)
  | internalError (msg : String)
deriving DecidableEq

/-- Outcome of DeleteGoalHandler (ok 200 with a message, notFound 404,
forbidden 403, internalError 500). -/
inductive DeleteGoalResult where
  | ok (msg : String)
  | notFound (msg : String)
  | forbidden (msg : String)
  | internalError (msg : String)
deriving DecidableEq

/-- internal/handler auth.go SignupHandler, after JSON binding has validated
the request shape. `hash` models bcrypt.GenerateFromPassword at cost 10
(which does not fail at a valid cost), `newID` the generated UUID, `now` the
current time. -/
def SignupHandler (hash : String → String) (newID : String) (now : Instant)
    (db : InMemoryDB) (req : SignupRequest) : InMemoryDB × SignupResult :=
  match db.GetUserByEmail req.email with
  | some _ => (db, .conflict "User with this email already exists")
  | none =>
    let user : User :=
      { id := newID, email := req.email, password := hash req.password,
        createdAt := now, updatedAt := now }
    match db.CreateUser user with
    | (db1, none) =>
      (db1, .created (GenerateJWT now.secs user.id user.email)
        { id := user.id, email := user.email, createdAt := user.createdAt })
    | (_, some e) => (db, .internalError ("Failed to create user: " ++ e))

/-- internal/handler auth.go LoginHandler, after JSON binding. `compare`
models bcrypt.CompareHashAndPassword on (stored hash, supplied password),
true when the comparison succeeds. The handler never writes the store. -/
def LoginHandler (compare : String → String → Bool) (now : Nat)
    (db : InMemoryDB) (req : LoginRequest) : LoginResult :=
  match db.GetUserByEmail req.email with
  | none => .unauthorized "Invalid email or password"
  | some user =>
    if compare user.password req.password then
      .success (GenerateJWT now user.id user.email)
        { id := user.id, email := user.email, createdAt := user.createdAt }
    else
      .unauthorized "Invalid email or password"

/-- The Authorization header as LogoutHandler classifies it: missing when
GetHeader returns the empty string; malformed when it does not have length
greater than 7 with the Bearer marker and a space in front; otherwise it
carries the bearer token string (modelled by its decoded SignedToken; an
unparsable string is a token whose signature flag is false). -/
inductive AuthHeader where
  | missing
  | malformed (raw : String)
  | bearer (tok : SignedToken)

/-- internal/handler auth.go LogoutHandler. It validates the header and token
and reads or writes no store state; the store is threaded through to state
the frame property. The Go message for a rejected token is the string
"Invalid token: " followed by the library error. -/
def LogoutHandler (now : Nat) (hdr : AuthHeader) (db : InMemoryDB) :
    InMemoryDB × LogoutResult :=
  match hdr with
  | .missing => (db, .unauthorized "No authorization header provided")
  | .malformed _ => (db, .unauthorized "Invalid authorization header format")
  | .bearer tok =>
    match ValidateJWT now tok with
    | none => (db, .unauthorized "Invalid token")
    | some claims => (db, .ok claims.userID)

/-- internal/handler goals.go CreateGoalHandler, after the auth middleware
(injecting userID) and JSON binding. `newID` is the generated UUID, `now`
the current time (start date, created-at). -/
def CreateGoalHandler (userID newID : String) (now : Instant)
    (db : InMemoryDB) (req : CreateGoalRequest) : InMemoryDB × CreateGoalResult :=
  let start := now.date
  let endDate :=
    match req.duration with
    | .weekly => addDate start 0 0 7
    | .monthly => addDate start 0 1 0
    | .yearly => addDate start 1 0 0
  let goal : Goal :=
    { id := newID, userID := userID, title := req.title,
      targetAmount := req.targetAmount, currentAmount := 0,
      duration := req.duration, startDate := start, endDate := endDate,
      completed := false, completedAt := none, createdAt := now }
  match db.CreateGoal goal with
  | (db1, none) => (db1, .created goal)
  | (_, some _) => (db, .internalError "Failed to create goal")

/-- internal/handler goals.go GetGoalsHandler (the store never returns an
error, so the 500 branch is unreachable). -/
def GetGoalsHandler (userID : String) (db : InMemoryDB) : List Goal :=
  (db.GetGoalsByUserID userID).1

/-- internal/handler goals.go UpdateGoalProgressHandler, after the auth
middleware and JSON binding (amount validated positive by the binding). -/
def UpdateGoalProgressHandler (now : Instant) (userID goalID : String)
    (amount : Rat) (db : InMemoryDB) : InMemoryDB × UpdateGoalResult :=
  match db.GetGoalByID goalID with
  | none => (db, .notFound "Goal not found")
  | some goal =>
    if goal.userID ≠ userID then
      (db, .forbidden "Forbidden")
    else
      let g1 := { goal with currentAmount := goal.currentAmount + amount }
      let g2 :=
        if g1.targetAmount ≤ g1.currentAmount then
          { g1 with completed := true, completedAt := some now }
        else g1
      match db.UpdateGoal g2 with
      | (db1, none) => (db1, .ok g2)
      | (_, some _) => (db, .internalError "Failed to update goal")

/-- internal/handler goals.go DeleteGoalHandler, after the auth middleware. -/
def DeleteGoalHandler (userID goalID : String) (db : InMemoryDB) :
    InMemoryDB × DeleteGoalResult :=
  match db.GetGoalByID goalID with
  | none => (db, .notFound "Goal not found")
  | some goal =>
    if goal.userID ≠ userID then
      (db, .forbidden "Forbidden")
    else
      match db.DeleteGoal goalID with
      | (db1, none) => (db1, .ok "Goal deleted successfully")
      | (_, some _) => (db, .internalError "Failed to delete goal")

/-- JSON values as the handlers emit them; a token value stands for the
signed JWT string and a time value for the RFC3339 rendering of an instant. -/
inductive Json where
  | str (s : String)
  | num (q : Rat)
  | boolean (b : Bool)
  | time (t : Instant)
  | jwt (tok : SignedToken)
  | arr (xs : List Json)
  | obj (fields : List (String × Json))

/-- Top-level keys of a JSON object. -/
def Json.topKeys : Json → List String
  | .obj fields => fields.map Prod.fst
  | _ => []

/-- Go encoding/json marshalling of models.User under its struct tags: the
password field carries the tag omitting it from every response, so only id,
email, created_at and updated_at are emitted. -/
def serializeUser (u : User) : Json :=
  .obj [("id", .str u.id), ("email", .str u.email),
        ("created_at", .time u.createdAt), ("updated_at", .time u.updatedAt)]

/-- Marshalling of models.UserResponse (id, email, created_at only). -/
def serializeUserResponse (u : UserResponse) : Json :=
  .obj [("id", .str u.id), ("email", .str u.email), ("created_at", .time u.createdAt)]

/-- Marshalling of models.AuthResponse (token plus public user view). -/
def serializeAuthResponse (token : SignedToken) (user : UserResponse) : Json :=
  .obj [("token", .jwt token), ("user", serializeUserResponse user)]

/-- Body of the signup response, for every outcome. -/
def serializeSignupResult : SignupResult → Json
  | .created tok u => serializeAuthResponse tok u
  | .conflict msg => .obj [("error", .str msg)]
  | .internalError msg => .obj [("error", .str msg)]

/-- Body of the login response, for every outcome. -/
def serializeLoginResult : LoginResult → Json
  | .success tok u => serializeAuthResponse tok u
  | .unauthorized msg => .obj [("error", .str msg)]

/-- internal/handler users.go ListUsersHandler: body of the response. -/
def ListUsersHandler (db : InMemoryDB) : Json :=
  .obj [("users", .arr (db.GetAllUsers.map serializeUser)),
        ("count", .num (db.GetAllUsers.length : Rat))]

/-- internal/handler users.go GetUserByEmailHandler: body of the response. -/
def GetUserByEmailHandler (db : InMemoryDB) (email : String) : Json :=
  if email = "" then
    .obj [("error", .str "At least one search parameter (email) must be provided")]
  else
    match db.GetUserByEmail email with
    | none => .obj [("error", .str "User not found")]
    | some user => .obj [("user", serializeUser user)]

/-- internal/handler users.go GetUserByIDHandler: body of the response. -/
def GetUserByIDHandler (db : InMemoryDB) (id : String) : Json :=
  match db.GetUserByID id with
  | none => .obj [("error", .str "User not found")]
  | some user => .obj [("user", serializeUser user)]

/-- Replace the stored password hash of one user (used to state that
serialized output does not depend on the hash). -/
def setPassword (p : String) (u : User) : User := { u with password := p }

/-- Replace every stored password hash in the store. -/
def scrubPasswords (p : String) (db : InMemoryDB) : InMemoryDB :=
  { db with users := db.users.map (fun kv => (kv.1, setPassword p kv.2)) }

/-- Sample date used by concrete witnesses. -/
def sampleDate : Date := ⟨2025, 3, 10⟩

/-- Sample instant used by concrete witnesses. -/
def sampleInstant : Instant := ⟨1000, sampleDate⟩

/-- Sample stored user used by concrete witnesses. -/
def sampleUser : User :=
  { id := "uid1", email := "a@b.com", password := "hash1",
    createdAt := sampleInstant, updatedAt := sampleInstant }

/-- Sample stored goal (already completed at time 900) used by witnesses. -/
def sampleGoal : Goal :=
  { id := "gid1", userID := "uid1", title := "Trip", targetAmount := 10,
    currentAmount := 10, duration := .weekly, startDate := sampleDate,
    endDate := ⟨2025, 3, 17⟩, completed := true,
    completedAt := some ⟨900, ⟨2025, 3, 9⟩⟩, createdAt := sampleInstant }

/-- Sample store holding one user and one goal, used by concrete witnesses. -/
def sampleDB : InMemoryDB := ⟨[("a@b.com", sampleUser)], [("gid1", sampleGoal)]⟩

/-! ## Date arithmetic lemmas -/

theorem daysInMonth_pos (year : Int) (month : Nat) : 1 ≤ daysInMonth year month := by
  unfold daysInMonth
  split <;> split <;> omega

theorem normDays_of_le (year : Int) (month day : Nat)
    (h : day ≤ daysInMonth year month) : normDays year month day = ⟨year, month, day⟩ := by
  rw [normDays]
  simp [h]

theorem normDays_succ (day : Nat) (year : Int) (month : Nat) (hd : 1 ≤ day) :
    normDays year month (day + 1) = nextDay (normDays year month day) := by
  induction day using Nat.strong_induction_on generalizing year month with
  | _ day ih =>
    by_cases h1 : day + 1 ≤ daysInMonth year month
    · rw [normDays_of_le _ _ _ h1, normDays_of_le _ _ _ (by omega)]
      unfold nextDay
      rw [if_pos (by simpa using by omega : (Date.mk year month day).day < daysInMonth year month)]
    · by_cases h2 : day ≤ daysInMonth year month
      · have hday : day = daysInMonth year month := by omega
        rw [normDays_of_le _ _ _ h2, normDays]
        rw [if_neg (by omega)]
        unfold nextDay
        by_cases hm : month = 12
        · rw [if_pos hm]
          rw [if_neg (by simpa using by omega), if_pos (by simpa using hm)]
          have hone : day + 1 - daysInMonth year month = 1 := by omega
          rw [hone, normDays_of_le _ _ _ (daysInMonth_pos _ _)]
        · rw [if_neg hm]
          rw [if_neg (by simpa using by omega), if_neg (by simpa using hm)]
          have hone : day + 1 - daysInMonth year month = 1 := by omega
          rw [hone, normDays_of_le _ _ _ (daysInMonth_pos _ _)]
      · have hdim := daysInMonth_pos year month
        have hrec : 1 ≤ day - daysInMonth year month := by omega
        have hlt : day - daysInMonth year month < day := by omega
        have hstep : day + 1 - daysInMonth year month = (day - daysInMonth year month) + 1 := by
          omega
        rw [normDays, if_neg (by omega)]
        conv_rhs => rw [normDays, if_neg (by omega)]
        by_cases hm : month = 12
        · rw [if_pos hm, if_pos hm, hstep, ih _ hlt _ _ hrec]
        · rw [if_neg hm, if_neg hm, hstep, ih _ hlt _ _ hrec]

theorem normDays_add (k : Nat) (year : Int) (month day : Nat) (hd : 1 ≤ day) :
    normDays year month (day + k) = nextDay^[k] (normDays year month day) := by
  induction k with
  | zero => simp
  | succ k ih =>
    have hs : day + (k + 1) = (day + k) + 1 := by omega
    rw [hs, normDays_succ _ _ _ (by omega), ih, Function.iterate_succ_apply']

theorem addDate_weekly (t : Date) (h : t.Valid) : addDate t 0 0 7 = plusDays t 7 := by
  obtain ⟨h1, h2, h3, h4⟩ := h
  unfold addDate plusDays
  dsimp only
  have hdiv : (t.month + 0 - 1) / 12 = 0 := by omega
  have hmod : (t.month + 0 - 1) % 12 + 1 = t.month := by omega
  rw [hdiv, hmod]
  simp only [Nat.cast_zero, add_zero]
  rw [normDays_add 7 _ _ _ h3, normDays_of_le _ _ _ h4]

theorem addDate_monthly (t : Date) (h : t.Valid) : addDate t 0 1 0 = plusOneMonth t := by
  obtain ⟨h1, h2, h3, h4⟩ := h
  unfold addDate plusOneMonth
  dsimp only
  by_cases hm : t.month = 12
  · rw [if_pos hm]
    have hdiv : (t.month + 1 - 1) / 12 = 1 := by omega
    have hmod : (t.month + 1 - 1) % 12 + 1 = 1 := by omega
    rw [hdiv, hmod]
    simp only [Nat.cast_zero, Nat.cast_one, add_zero]
  · rw [if_neg hm]
    have hdiv : (t.month + 1 - 1) / 12 = 0 := by omega
    have hmod : (t.month + 1 - 1) % 12 + 1 = t.month + 1 := by omega
    rw [hdiv, hmod]
    simp only [Nat.cast_zero, add_zero]

theorem addDate_yearly (t : Date) (h : t.Valid) : addDate t 1 0 0 = plusOneYear t := by
  obtain ⟨h1, h2, h3, h4⟩ := h
  unfold addDate plusOneYear
  dsimp only
  have hdiv : (t.month + 0 - 1) / 12 = 0 := by omega
  have hmod : (t.month + 0 - 1) % 12 + 1 = t.month := by omega
  rw [hdiv, hmod]
  simp only [Nat.cast_zero, Nat.cast_one, add_zero]

/-! ## The token validity window (claim C3) -/

/-- C3: a token issued by GenerateJWT at time T carries issued-at = T,
not-before = T and expires-at = T + 24 hours; ValidateJWT accepts it with its
embedded userID and email claims at every time in [T, T + 24h) and rejects it
at or after T + 24h. -/
theorem jwt_validity_window (T t : Nat) (userID email : String) :
    (GenerateJWT T userID email).claims.issuedAt = T
  ∧ (GenerateJWT T userID email).claims.notBefore = T
  ∧ (GenerateJWT T userID email).claims.expiresAt = T + 24 * 60 * 60
  ∧ (T ≤ t ∧ t < T + 24 * 60 * 60 →
      ValidateJWT t (GenerateJWT T userID email)
        = some { userID := userID, email := email,
                 expiresAt := T + 24 * 60 * 60, issuedAt := T, notBefore := T })
  ∧ (T + 24 * 60 * 60 ≤ t → ValidateJWT t (GenerateJWT T userID email) = none) := by
  refine ⟨rfl, rfl, rfl, ?_, ?_⟩
  · rintro ⟨h1, h2⟩
    unfold ValidateJWT GenerateJWT
    rw [if_pos]
    exact ⟨rfl, h1, h2⟩
  · intro h
    unfold ValidateJWT GenerateJWT
    dsimp only
    rw [if_neg]
    rintro ⟨-, -, h3⟩
    omega

/-- C3 witness: at issue time 10 the token is accepted at time 10 (full
claims returned) and rejected at its expiry time. -/
theorem jwt_validity_window_witness :
    ValidateJWT 10 (GenerateJWT 10 "u" "e")
      = some { userID := "u", email := "e", expiresAt := 10 + 24 * 60 * 60,
               issuedAt := 10, notBefore := 10 }
  ∧ ValidateJWT (10 + 24 * 60 * 60) (GenerateJWT 10 "u" "e") = none :=
  ⟨(jwt_validity_window 10 10 "u" "e").2.2.2.1 ⟨by decide, by decide⟩,
   (jwt_validity_window 10 (10 + 24 * 60 * 60) "u" "e").2.2.2.2 (by decide)⟩

/-! ## Listing goals by owner (claim C8) -/

theorem goalsLoop_eq_filter (userID : String) (l : List (String × Goal)) (acc : List Goal) :
    l.foldl (fun acc kv => if kv.2.userID == userID then acc ++ [kv.2] else acc) acc
      = acc ++ (l.map Prod.snd).filter (fun g => g.userID == userID) := by
  induction l generalizing acc with
  | nil => simp
  | cons kv tl ih =>
    rw [List.foldl_cons, List.map_cons, List.filter_cons]
    cases h : (kv.2.userID == userID) with
    | true =>
      rw [if_pos rfl, if_pos rfl, ih, List.append_assoc, List.singleton_append]
    | false =>
      rw [if_neg Bool.false_ne_true, if_neg Bool.false_ne_true, ih]

/-- C8: GetGoalsByUserID never returns an error, and its result is exactly
the stored goals whose owning user identifier equals the given one (so an
empty collection when none match). -/
theorem getGoalsByUserID_filters_by_owner (db : InMemoryDB) (userID : String) :
    (db.GetGoalsByUserID userID).2 = none
  ∧ (db.GetGoalsByUserID userID).1
      = (db.goals.map Prod.snd).filter (fun g => g.userID == userID)
  ∧ ∀ g : Goal, g ∈ (db.GetGoalsByUserID userID).1
      ↔ (g ∈ db.goals.map Prod.snd ∧ g.userID = userID) := by
  have h2 : (db.GetGoalsByUserID userID).1
      = (db.goals.map Prod.snd).filter (fun g => g.userID == userID) := by
    unfold InMemoryDB.GetGoalsByUserID
    dsimp only
    rw [goalsLoop_eq_filter]
    simp
  refine ⟨rfl, h2, ?_⟩
  intro g
  rw [h2, List.mem_filter]
  simp

/-! ## Logout has no side effect (claim C9) -/

/-- C9: LogoutHandler never modifies the store (the users and goals mappings
after the call are the ones before it, so any token accepted before a logout
is still accepted afterwards); a missing or malformed Authorization header
yields Unauthorized, and a valid bearer token yields success carrying the
embedded user ID. -/
theorem logout_pure (now : Nat) (hdr : AuthHeader) (db : InMemoryDB) :
    (LogoutHandler now hdr db).1 = db
  ∧ (LogoutHandler now .missing db).2 = .unauthorized "No authorization header provided"
  ∧ (∀ raw, (LogoutHandler now (.malformed raw) db).2
      = .unauthorized "Invalid authorization header format")
  ∧ (∀ tok claims, ValidateJWT now tok = some claims →
      (LogoutHandler now (.bearer tok) db).2 = .ok claims.userID) := by
  refine ⟨?_, rfl, fun raw => rfl, ?_⟩
  · cases hdr with
    | missing => rfl
    | malformed raw => rfl
    | bearer tok =>
      cases h : ValidateJWT now tok <;> simp [LogoutHandler, h]
  · intro tok claims h
    simp [LogoutHandler, h]

/-- C9 witness: logging out with a token issued at time 40, at time 50,
returns the embedded user ID and leaves the sample store untouched. -/
theorem logout_pure_witness :
    (LogoutHandler 50 (.bearer (GenerateJWT 40 "uid1" "a@b.com")) sampleDB).1 = sampleDB
  ∧ (LogoutHandler 50 (.bearer (GenerateJWT 40 "uid1" "a@b.com")) sampleDB).2 = .ok "uid1" :=
  ⟨(logout_pure 50 (.bearer (GenerateJWT 40 "uid1" "a@b.com")) sampleDB).1,
   (logout_pure 50 .missing sampleDB).2.2.2 (GenerateJWT 40 "uid1" "a@b.com")
     { userID := "uid1", email := "a@b.com", expiresAt := 40 + 24 * 60 * 60,
       issuedAt := 40, notBefore := 40 } (by decide)⟩

/-! ## Failing store operations change nothing (claim C10) -/

/-- C10: whenever CreateUser, DeleteUser, CreateGoal, UpdateGoal or
DeleteGoal returns an error, the whole store (both the users mapping and the
goals mapping) is exactly what it was before the call. -/
theorem store_failure_leaves_state (db : InMemoryDB) (u : User) (email : String)
    (g : Goal) (gid : String) :
    ((db.CreateUser u).2.isSome → (db.CreateUser u).1 = db)
  ∧ ((db.DeleteUser email).2.isSome → (db.DeleteUser email).1 = db)
  ∧ ((db.CreateGoal g).2.isSome → (db.CreateGoal g).1 = db)
  ∧ ((db.UpdateGoal g).2.isSome → (db.UpdateGoal g).1 = db)
  ∧ ((db.DeleteGoal gid).2.isSome → (db.DeleteGoal gid).1 = db) := by
  refine ⟨?_, ?_, ?_, ?_, ?_⟩
  · intro h
    by_cases hc : (db.GetUserByEmail u.email).isSome <;>
      simp [InMemoryDB.CreateUser, hc] at h ⊢
  · intro h
    by_cases hc : (db.GetUserByEmail email).isNone <;>
      simp [InMemoryDB.DeleteUser, hc] at h ⊢
  · intro h
    by_cases hc : (db.GetGoalByID g.id).isSome <;>
      simp [InMemoryDB.CreateGoal, hc] at h ⊢
  · intro h
    by_cases hc : (db.GetGoalByID g.id).isNone <;>
      simp [InMemoryDB.UpdateGoal, hc] at h ⊢
  · intro h
    by_cases hc : (db.GetGoalByID gid).isNone <;>
      simp [InMemoryDB.DeleteGoal, hc] at h ⊢

/-- C10 witness: on the sample store, a duplicate CreateUser, a DeleteUser of
an absent email, a duplicate CreateGoal, an UpdateGoal of an absent ID and a
DeleteGoal of an absent ID all leave the store unchanged. -/
theorem store_failure_leaves_state_witness :
    ((sampleDB.CreateUser sampleUser).1 = sampleDB)
  ∧ ((sampleDB.DeleteUser "missing@b.com").1 = sampleDB)
  ∧ ((sampleDB.CreateGoal sampleGoal).1 = sampleDB)
  ∧ ((sampleDB.UpdateGoal { sampleGoal with id := "absent" }).1 = sampleDB)
  ∧ ((sampleDB.DeleteGoal "absent").1 = sampleDB) :=
  ⟨(store_failure_leaves_state sampleDB sampleUser "missing@b.com" sampleGoal "absent").1
      (by decide),
   (store_failure_leaves_state sampleDB sampleUser "missing@b.com" sampleGoal "absent").2.1
      (by decide),
   (store_failure_leaves_state sampleDB sampleUser "missing@b.com" sampleGoal "absent").2.2.1
      (by decide),
   (store_failure_leaves_state sampleDB sampleUser "missing@b.com"
      { sampleGoal with id := "absent" } "absent").2.2.2.1 (by decide),
   (store_failure_leaves_state sampleDB sampleUser "missing@b.com" sampleGoal "absent").2.2.2.2
      (by decide)⟩

/-! ## Login success criterion (claim C2) -/

/-- C2: login succeeds, issuing a token, exactly when a user with the given
email is stored and the hash comparison of the stored hash against the
supplied password succeeds; in every failure case (unknown email, or failed
comparison for an existing email) the outcome is the same Unauthorized
response with the same message. -/
theorem login_success_iff (compare : String → String → Bool) (now : Nat)
    (db : InMemoryDB) (req : LoginRequest) :
    ((∃ u, db.GetUserByEmail req.email = some u ∧ compare u.password req.password = true)
      ↔ ∃ tok ur, LoginHandler compare now db req = .success tok ur)
  ∧ ((¬ ∃ u, db.GetUserByEmail req.email = some u ∧ compare u.password req.password = true) →
      LoginHandler compare now db req = .unauthorized "Invalid email or password") := by
  constructor
  · constructor
    · rintro ⟨u, hu, hc⟩
      refine ⟨GenerateJWT now u.id u.email, ⟨u.id, u.email, u.createdAt⟩, ?_⟩
      simp [LoginHandler, hu, hc]
    · rintro ⟨tok, ur, h⟩
      unfold LoginHandler at h
      cases hu : db.GetUserByEmail req.email with
      | none => simp [hu] at h
      | some u =>
        rw [hu] at h
        dsimp only at h
        by_cases hc : compare u.password req.password = true
        · exact ⟨u, rfl, hc⟩
        · rw [if_neg hc] at h
          cases h
  · intro hno
    unfold LoginHandler
    cases hu : db.GetUserByEmail req.email with
    | none => rfl
    | some u =>
      dsimp only
      rw [if_neg (fun hcc => hno ⟨u, hu, hcc⟩)]

/-- C2 witness: with a comparison that always fails, a login for an existing
email with a wrong password and a login for an unknown email produce the
identical Unauthorized response. -/
theorem login_success_iff_witness :
    LoginHandler (fun _ _ => false) 0 sampleDB ⟨"a@b.com", "wrong"⟩
      = .unauthorized "Invalid email or password"
  ∧ LoginHandler (fun _ _ => false) 0 sampleDB ⟨"nobody@b.com", "pw"⟩
      = .unauthorized "Invalid email or password" :=
  ⟨(login_success_iff (fun _ _ => false) 0 sampleDB ⟨"a@b.com", "wrong"⟩).2
      (by rintro ⟨u, hu, hc⟩; simp at hc),
   (login_success_iff (fun _ _ => false) 0 sampleDB ⟨"nobody@b.com", "pw"⟩).2
      (by rintro ⟨u, hu, hc⟩; simp at hc)⟩

/-! ## Signup uniqueness (claim C4) -/

/-- C4: with a fresh email, signup succeeds, storing the user keyed by that
email; a second signup with the same email then returns Conflict and leaves
the store unchanged; and at the store level CreateUser fails with the
already-exists error whenever a user with the same email is present, leaving
the store (and so the existing record) in place. -/
theorem signup_fresh_email_then_conflict (hash : String → String) (id1 id2 : String)
    (t1 t2 : Instant) (db : InMemoryDB) (req : SignupRequest)
    (hfresh : db.GetUserByEmail req.email = none) :
    (SignupHandler hash id1 t1 db req).2
        = .created (GenerateJWT t1.secs id1 req.email)
            { id := id1, email := req.email, createdAt := t1 }
  ∧ (SignupHandler hash id1 t1 db req).1.GetUserByEmail req.email
        = some { id := id1, email := req.email, password := hash req.password,
                 createdAt := t1, updatedAt := t1 }
  ∧ (SignupHandler hash id2 t2 (SignupHandler hash id1 t1 db req).1 req).2
        = .conflict "User with this email already exists"
  ∧ (SignupHandler hash id2 t2 (SignupHandler hash id1 t1 db req).1 req).1
        = (SignupHandler hash id1 t1 db req).1
  ∧ (∀ (db2 : InMemoryDB) (u2 w : User), db2.GetUserByEmail u2.email = some w →
        db2.CreateUser u2 = (db2, some "user with this email already exists")) := by
  have hfind : db.users.find? (fun kv => kv.1 == req.email) = none :=
    Option.map_eq_none'.mp hfresh
  have hrun : SignupHandler hash id1 t1 db req
      = ({ db with users := db.users ++
            [(req.email, { id := id1, email := req.email, password := hash req.password,
                           createdAt := t1, updatedAt := t1 })] },
         .created (GenerateJWT t1.secs id1 req.email)
            { id := id1, email := req.email, createdAt := t1 }) := by
    unfold SignupHandler
    rw [hfresh]
    dsimp only
    unfold InMemoryDB.CreateUser
    rw [hfresh]
    rfl
  have hlook : (SignupHandler hash id1 t1 db req).1.GetUserByEmail req.email
      = some { id := id1, email := req.email, password := hash req.password,
               createdAt := t1, updatedAt := t1 } := by
    rw [hrun]
    unfold InMemoryDB.GetUserByEmail
    dsimp only
    rw [List.find?_append, hfind]
    simp
  have hconf : ∀ (db1 : InMemoryDB) (w : User), db1.GetUserByEmail req.email = some w →
      SignupHandler hash id2 t2 db1 req
        = (db1, .conflict "User with this email already exists") := by
    intro db1 w h
    unfold SignupHandler
    rw [h]
  refine ⟨by rw [hrun], hlook, ?_, ?_, ?_⟩
  · rw [hconf _ _ hlook]
  · rw [hconf _ _ hlook]
  · intro db2 u2 w h
    unfold InMemoryDB.CreateUser
    rw [h]
    rfl

/-- C4 witness: signing up a fresh email on the sample store succeeds and
stores the hashed record; repeating it returns Conflict without change, and
a store-level CreateUser for the stored email fails. -/
theorem signup_fresh_email_then_conflict_witness :
    (SignupHandler (fun s => "H" ++ s) "id-1" sampleInstant sampleDB
        ⟨"new@b.com", "secret1"⟩).2
      = .created (GenerateJWT sampleInstant.secs "id-1" "new@b.com")
          { id := "id-1", email := "new@b.com", createdAt := sampleInstant }
  ∧ (SignupHandler (fun s => "H" ++ s) "id-2" sampleInstant
        (SignupHandler (fun s => "H" ++ s) "id-1" sampleInstant sampleDB
          ⟨"new@b.com", "secret1"⟩).1 ⟨"new@b.com", "secret1"⟩).2
      = .conflict "User with this email already exists" :=
  ⟨(signup_fresh_email_then_conflict (fun s => "H" ++ s) "id-1" "id-2"
      sampleInstant sampleInstant sampleDB ⟨"new@b.com", "secret1"⟩ (by decide)).1,
   (signup_fresh_email_then_conflict (fun s => "H" ++ s) "id-1" "id-2"
      sampleInstant sampleInstant sampleDB ⟨"new@b.com", "secret1"⟩ (by decide)).2.2.1⟩

/-! ## Password never serialized (claim C6) -/

theorem find?_users_scrub (p : String) (l : List (String × User)) (email : String) :
    ((l.map (fun kv => (kv.1, setPassword p kv.2))).find? (fun kv => kv.1 == email)).map Prod.snd
      = ((l.find? (fun kv => kv.1 == email)).map Prod.snd).map (setPassword p) := by
  induction l with
  | nil => rfl
  | cons kv tl ih =>
    rw [List.map_cons]
    cases h : (kv.1 == email) with
    | true =>
      simp only [List.find?, h]
      rfl
    | false =>
      simp only [List.find?, h]
      exact ih

theorem find?_byid_scrub (p : String) (l : List (String × User)) (id : String) :
    ((l.map (fun kv => (kv.1, setPassword p kv.2))).map Prod.snd).find? (fun u => u.id == id)
      = ((l.map Prod.snd).find? (fun u => u.id == id)).map (setPassword p) := by
  induction l with
  | nil => rfl
  | cons kv tl ih =>
    rw [List.map_cons, List.map_cons, List.map_cons]
    cases h : (kv.2.id == id) with
    | true =>
      have h2 : ((setPassword p kv.2).id == id) = true := by
        simpa [setPassword] using h
      simp only [List.find?, h, h2]
      rfl
    | false =>
      have h2 : ((setPassword p kv.2).id == id) = false := by
        simpa [setPassword] using h
      simp only [List.find?, h, h2]
      exact ih

theorem getUserByEmail_scrub (p : String) (db : InMemoryDB) (email : String) :
    (scrubPasswords p db).GetUserByEmail email
      = (db.GetUserByEmail email).map (setPassword p) :=
  find?_users_scrub p db.users email

theorem getUserByID_scrub (p : String) (db : InMemoryDB) (id : String) :
    (scrubPasswords p db).GetUserByID id = (db.GetUserByID id).map (setPassword p) :=
  find?_byid_scrub p db.users id

theorem getAllUsers_scrub (p : String) (db : InMemoryDB) :
    (scrubPasswords p db).GetAllUsers = db.GetAllUsers.map (setPassword p) := by
  unfold scrubPasswords InMemoryDB.GetAllUsers
  dsimp only
  rw [List.map_map, List.map_map]
  rfl

/-- C6: no operation that returns user data ever serializes the password
hash: the user serialization is independent of the stored hash and emits no
password key, the public user view and auth response have no password field,
and the list-users, search-by-email and get-by-ID handlers produce identical
output whatever hashes are stored. -/
theorem no_password_in_serialized_output (db : InMemoryDB) (u : User)
    (r : UserResponse) (tok : SignedToken) (p email id : String) :
    serializeUser (setPassword p u) = serializeUser u
  ∧ (serializeUser u).topKeys = ["id", "email", "created_at", "updated_at"]
  ∧ (serializeUserResponse r).topKeys = ["id", "email", "created_at"]
  ∧ (serializeAuthResponse tok r).topKeys = ["token", "user"]
  ∧ ListUsersHandler (scrubPasswords p db) = ListUsersHandler db
  ∧ GetUserByEmailHandler (scrubPasswords p db) email = GetUserByEmailHandler db email
  ∧ GetUserByIDHandler (scrubPasswords p db) id = GetUserByIDHandler db id := by
  refine ⟨rfl, rfl, rfl, rfl, ?_, ?_, ?_⟩
  · unfold ListUsersHandler
    rw [getAllUsers_scrub, List.map_map, List.length_map]
    rfl
  · unfold GetUserByEmailHandler
    rw [getUserByEmail_scrub]
    by_cases he : email = ""
    · rw [if_pos he, if_pos he]
    · rw [if_neg he, if_neg he]
      cases h : db.GetUserByEmail email <;> rfl
  · unfold GetUserByIDHandler
    rw [getUserByID_scrub]
    cases h : db.GetUserByID id <;> rfl

/-! ## Ownership and existence checks on goal mutation (claim C7) -/

/-- C7: update-progress and delete on a goal ID that is absent return
NotFound; on a goal that exists but is owned by a different user identifier
they return Forbidden; in both cases the store is returned unchanged and the
response carries only an error message, never the goal contents. -/
theorem goal_mutation_auth_checks (now : Instant) (userID goalID : String)
    (amount : Rat) (db : InMemoryDB) :
    (db.GetGoalByID goalID = none →
        UpdateGoalProgressHandler now userID goalID amount db
          = (db, .notFound "Goal not found")
      ∧ DeleteGoalHandler userID goalID db = (db, .notFound "Goal not found"))
  ∧ (∀ g, db.GetGoalByID goalID = some g → g.userID ≠ userID →
        UpdateGoalProgressHandler now userID goalID amount db
          = (db, .forbidden "Forbidden")
      ∧ DeleteGoalHandler userID goalID db = (db, .forbidden "Forbidden")) := by
  constructor
  · intro h
    constructor
    · unfold UpdateGoalProgressHandler
      rw [h]
    · unfold DeleteGoalHandler
      rw [h]
  · intro g hg hne
    constructor
    · unfold UpdateGoalProgressHandler
      rw [hg]
      dsimp only
      rw [if_pos hne]
    · unfold DeleteGoalHandler
      rw [hg]
      dsimp only
      rw [if_pos hne]

/-- C7 witness: on the sample store, an update attempt by another user is
Forbidden and a delete of an absent goal ID is NotFound, both leaving the
store exactly as it was. -/
theorem goal_mutation_auth_checks_witness :
    UpdateGoalProgressHandler sampleInstant "intruder" "gid1" 1 sampleDB
      = (sampleDB, .forbidden "Forbidden")
  ∧ DeleteGoalHandler "uid1" "absent" sampleDB = (sampleDB, .notFound "Goal not found") :=
  ⟨((goal_mutation_auth_checks sampleInstant "intruder" "gid1" 1 sampleDB).2 sampleGoal
      (by decide) (by decide)).1,
   ((goal_mutation_auth_checks sampleInstant "uid1" "absent" 1 sampleDB).1 (by decide)).2⟩

/-! ## Progress updates on a completed goal (claim C1) -/

/-- C1 counterexample: in the sample store the goal is already completed
with completion timestamp 900, yet a further update with positive amount at
time 1000 moves the completion timestamp to 1000, so the timestamp is not
left unchanged as the claim states. -/
theorem completedAt_moves_on_further_update :
    ((UpdateGoalProgressHandler sampleInstant "uid1" "gid1" 1 sampleDB).1.GetGoalByID
        "gid1").map Goal.completedAt = some (some sampleInstant)
  ∧ (sampleDB.GetGoalByID "gid1").map Goal.completedAt
      = some (some ⟨900, ⟨2025, 3, 9⟩⟩)
  ∧ (sampleInstant : Instant) ≠ ⟨900, ⟨2025, 3, 9⟩⟩ := by
  refine ⟨?_, by decide, by decide⟩
  unfold UpdateGoalProgressHandler
  rw [show sampleDB.GetGoalByID "gid1" = some sampleGoal from by decide]
  dsimp only
  rw [if_neg (by decide : ¬ sampleGoal.userID ≠ "uid1")]
  rw [if_pos (show sampleGoal.targetAmount ≤ sampleGoal.currentAmount + 1 from by
        norm_num [sampleGoal])]
  unfold InMemoryDB.UpdateGoal
  dsimp only
  rw [show sampleDB.GetGoalByID sampleGoal.id = some sampleGoal from by decide]
  rw [if_neg (by simp)]
  dsimp only
  simp [sampleDB, sampleGoal, InMemoryDB.GetGoalByID, List.find?, sampleInstant]

/-- C1 (amended): for a goal already completed (current amount ≥ target
amount), a later update with a positive amount keeps completed = true, but
the completion timestamp is overwritten with the time of that update — the
handler re-stamps CompletedAt on every update that finds current ≥ target,
so the timestamp is not set only once. -/
theorem updateProgress_completed_restamps (now : Instant) (userID goalID : String)
    (amount : Rat) (db : InMemoryDB) (g : Goal)
    (hg : db.GetGoalByID goalID = some g) (hid : g.id = goalID)
    (hown : g.userID = userID) (hdone : g.targetAmount ≤ g.currentAmount)
    (hpos : 0 < amount) :
    ∃ g2, (UpdateGoalProgressHandler now userID goalID amount db).2 = .ok g2
      ∧ g2.completed = true
      ∧ g2.completedAt = some now
      ∧ g2.currentAmount = g.currentAmount + amount := by
  unfold UpdateGoalProgressHandler
  rw [hg]
  dsimp only
  rw [if_neg (by simp [hown])]
  rw [if_pos (show g.targetAmount ≤ g.currentAmount + amount from
        le_trans hdone (le_add_of_nonneg_right hpos.le))]
  unfold InMemoryDB.UpdateGoal
  dsimp only
  rw [hid, hg]
  rw [if_neg (by simp)]
  exact ⟨_, rfl, rfl, rfl, rfl⟩

/-- C1 amended witness: a concrete further update on the already-completed
sample goal at time 1000 keeps completed true and re-stamps the timestamp. -/
theorem updateProgress_completed_restamps_witness :
    ∃ g2, (UpdateGoalProgressHandler sampleInstant "uid1" "gid1" 1 sampleDB).2 = .ok g2
      ∧ g2.completed = true
      ∧ g2.completedAt = some sampleInstant
      ∧ g2.currentAmount = sampleGoal.currentAmount + 1 :=
  updateProgress_completed_restamps sampleInstant "uid1" "gid1" 1 sampleDB sampleGoal
    (by decide) (by decide) (by decide) (by decide) (by decide)

/-! ## Goal creation: end date and initial state (claim C5) -/

/-- C5: a goal created with a valid start date and a fresh ID starts with
current amount 0 and completed = false, and its end date is the start date
plus exactly 7 days for weekly, plus one calendar month for monthly, and
plus one calendar year for yearly. -/
theorem createGoal_endDate_and_init (userID newID : String) (now : Instant)
    (db : InMemoryDB) (req : CreateGoalRequest)
    (hvalid : now.date.Valid) (hfresh : db.GetGoalByID newID = none) :
    ∃ g, (CreateGoalHandler userID newID now db req).2 = .created g
      ∧ g.currentAmount = 0 ∧ g.completed = false ∧ g.startDate = now.date
      ∧ (req.duration = .weekly → g.endDate = plusDays now.date 7)
      ∧ (req.duration = .monthly → g.endDate = plusOneMonth now.date)
      ∧ (req.duration = .yearly → g.endDate = plusOneYear now.date) := by
  unfold CreateGoalHandler InMemoryDB.CreateGoal
  dsimp only
  rw [hfresh]
  rw [if_neg (by simp)]
  refine ⟨_, rfl, rfl, rfl, rfl, ?_, ?_, ?_⟩
  · intro hd
    rw [hd]
    exact addDate_weekly now.date hvalid
  · intro hd
    rw [hd]
    exact addDate_monthly now.date hvalid
  · intro hd
    rw [hd]
    exact addDate_yearly now.date hvalid

/-- C5 witness: creating a monthly goal on 2025-01-31 in the sample store. -/
theorem createGoal_endDate_and_init_witness :
    ∃ g, (CreateGoalHandler "uid1" "gid2" ⟨0, ⟨2025, 1, 31⟩⟩ sampleDB
        { title := "Trip", targetAmount := 500, duration := .monthly }).2 = .created g
      ∧ g.currentAmount = 0 ∧ g.completed = false ∧ g.startDate = (⟨2025, 1, 31⟩ : Date)
      ∧ (GoalDuration.monthly = .weekly → g.endDate = plusDays ⟨2025, 1, 31⟩ 7)
      ∧ (GoalDuration.monthly = .monthly → g.endDate = plusOneMonth ⟨2025, 1, 31⟩)
      ∧ (GoalDuration.monthly = .yearly → g.endDate = plusOneYear ⟨2025, 1, 31⟩) :=
  createGoal_endDate_and_init "uid1" "gid2" ⟨0, ⟨2025, 1, 31⟩⟩ sampleDB
    { title := "Trip", targetAmount := 500, duration := .monthly }
    (by decide) (by decide)

end DinoNest
